import Mathlib

/-!
Verification of the yfaming/csv codec (src/csv.c, src/csv.h).

The C code is shallowly embedded: the byte stream consumed by the parser is
a `List Char` (EOF is the empty list; `ungetc` pushback is modelled by not
consuming the element), the byte sink of the writer is the `List Char` the
writer produces, and allocation is modelled as always succeeding except in
the error-constructor model where the two `malloc` calls are driven by
explicit oracles.  Machine characters are Lean `Char`s compared for
equality; the C code never does arithmetic on them.
-/

namespace Csv

/-! ### Character and error-code constants (csv.c lines 59-72, csv.h enum) -/

def QUOTE_CHAR : Char := '"'

def COMMA_CHAR : Char := ','

def CR_CHAR : Char := '\r'

def LF_CHAR : Char := '\n'

/-- The terminating NUL byte of a C string. -/
def NUL_CHAR : Char := Char.ofNat 0

def CSV_ENOMEMORY : Nat := 1

def CSV_EINVALID_FIELD_DELIMITER : Nat := 2

/-- Error code `CSV_EIO` of csv.h (read/write error). -/
def CSV_EIOERR : Nat := 3

def CSV_EINVALID_FORMAT : Nat := 4

def CSV_EINVALID_QUOTE_STYLE : Nat := 5

def CSV_EINVALID_LINEBREAK : Nat := 6

/-- `is_valid_field_delimiter` (csv.c lines 75-84): the delimiter must not be
`\r`, `\n` or `"`. -/
def is_valid_field_delimiter (c : Char) : Bool :=
  !(c == CR_CHAR || c == LF_CHAR || c == QUOTE_CHAR)

/-! ### Error values (csv.c lines 11-57)

`csv_error_t` carries a numeric code and a message.  `csv_error_new` is
embedded with two Boolean oracles telling whether the two `malloc` calls
(for the struct and for the message copy) succeed; its result records
which heap cell is returned (the process-wide `GLOBAL_OOM` or a fresh one)
together with the number of `malloc` calls performed. -/

structure CsvErr where
  error_code : Nat
  message : String
deriving DecidableEq, Repr

/-- The global out-of-memory error (csv.c line 11). -/
def GLOBAL_OOM : CsvErr := ⟨CSV_ENOMEMORY, "out of memory"⟩

/-- Which heap cell an error-returning function hands back: the shared
process-wide instance, or a freshly allocated one with the given value. -/
inductive ErrCell where
  | global : ErrCell
  | fresh : CsvErr → ErrCell
deriving DecidableEq, Repr

/-- The error value stored in a cell (`ErrCell.global` holds `GLOBAL_OOM`). -/
def errCellVal : ErrCell → CsvErr
  | .global => GLOBAL_OOM
  | .fresh e => e

/-- `csv_error_new` (csv.c lines 30-48).  `alloc1` tells whether the
`malloc` for the struct succeeds, `alloc2` whether the `malloc` for the
message copy succeeds.  The second component counts `malloc` calls made. -/
def csv_error_new (alloc1 alloc2 : Bool) (error_code : Nat) (message : String) :
    ErrCell × Nat :=
  if error_code = CSV_ENOMEMORY then (.global, 0)
  else if alloc1 = false then (.global, 1)
  else if alloc2 = false then (.global, 2)
  else (.fresh ⟨error_code, message⟩, 2)

/-- What `csv_error_free` does to the memory of its argument. -/
inductive FreeEffect where
  | noop : FreeEffect
  | freesMessageAndStruct : FreeEffect
deriving DecidableEq, Repr

/-- `csv_error_free` (csv.c lines 51-57): errors whose code is
`CSV_ENOMEMORY` are left alone, any other error has its message and its
struct freed. -/
def csv_error_free (err : CsvErr) : FreeEffect :=
  if err.error_code = CSV_ENOMEMORY then .noop
  else .freesMessageAndStruct

/-! ### Parser (csv.c lines 292-473)

The parser proper is a two-state automaton reading one character at a
time with one character of lookahead.  In the pure embedding the stream
cannot signal an I/O error and allocation always succeeds, so the only
errors produced are the three `CSV_EINVALID_FORMAT` ones. -/

inductive ParseState where
  | ST_START : ParseState
  | ST_INFIELD : ParseState
deriving DecidableEq, Repr

/-- Result of one `csv_parse_next_row` call: a parsed row with the rest of
the stream (the non-NULL return), the end-of-input sentinel (NULL with
`err` unset), or a failure (NULL with `err` set). -/
inductive RowResult where
  | row : List (List Char) → List Char → RowResult
  | finished : RowResult
  | failure : CsvErr → RowResult
deriving DecidableEq, Repr

/-- `consume_end_of_line` (csv.c lines 300-307): when the triggering
character is `\r`, read one character of lookahead and push it back unless
it is `\n` (or EOF). -/
def consume_end_of_line (c : Char) (input : List Char) : List Char :=
  if c = CR_CHAR then
    match input with
    | [] => []
    | lookahead :: rest => if lookahead = LF_CHAR then rest else lookahead :: rest
  else input

/-- The body of `csv_parse_next_row`'s `while (1)` loop (csv.c lines
319-467), one clause per `fgetc` result and state.  `buf` is the decoded
content of the current field, `row` the fields finished so far.  EOF is
the empty list; the quoted-field lookahead (csv.c line 392) is the head of
`rest`.  Note csv.c line 404 passes `c` (the closing quote), not the
lookahead, to `consume_end_of_line`; the embedding reproduces that. -/
def parse_go (delim : Char) (input : List Char) (state : ParseState)
    (quoted : Bool) (buf : List Char) (row : List (List Char)) : RowResult :=
  match input, state with
  | [], .ST_START =>
    if row.length > 0 then .row (row ++ [buf]) []
    else .finished
  | [], .ST_INFIELD =>
    if quoted then .failure ⟨CSV_EINVALID_FORMAT, "unclosed quote"⟩
    else .row (row ++ [buf]) []
  | c :: rest, .ST_START =>
    if c = QUOTE_CHAR then
      parse_go delim rest .ST_INFIELD true buf row
    else if c = CR_CHAR ∨ c = LF_CHAR then
      if row.length > 0 then .row (row ++ [buf]) (consume_end_of_line c rest)
      else .row row (consume_end_of_line c rest)
    else if c = delim then
      parse_go delim rest .ST_START false [] (row ++ [buf])
    else
      parse_go delim rest .ST_INFIELD quoted (buf ++ [c]) row
  | c :: rest, .ST_INFIELD =>
    if c = QUOTE_CHAR then
      if quoted = false then
        .failure ⟨CSV_EINVALID_FORMAT, "quote(\") should be quoted"⟩
      else
        match rest with
        | [] =>
          .failure ⟨CSV_EINVALID_FORMAT,
            "closing quote can only followed by `\r\n` or field_delimiter"⟩
        | lookahead :: rest2 =>
          if lookahead = QUOTE_CHAR then
            parse_go delim rest2 .ST_INFIELD quoted (buf ++ [QUOTE_CHAR]) row
          else if lookahead = delim then
            parse_go delim rest2 .ST_START false [] (row ++ [buf])
          else if lookahead = CR_CHAR ∨ lookahead = LF_CHAR then
            .row (row ++ [buf]) (consume_end_of_line c rest2)
          else
            .failure ⟨CSV_EINVALID_FORMAT,
              "closing quote can only followed by `\r\n` or field_delimiter"⟩
    else if c = CR_CHAR ∨ c = LF_CHAR then
      if quoted then parse_go delim rest .ST_INFIELD quoted (buf ++ [c]) row
      else .row (row ++ [buf]) (consume_end_of_line c rest)
    else if c = delim then
      if quoted then parse_go delim rest .ST_INFIELD quoted (buf ++ [c]) row
      else parse_go delim rest .ST_START false [] (row ++ [buf])
    else
      parse_go delim rest .ST_INFIELD quoted (buf ++ [c]) row

/-- `csv_parse_next_row` (csv.c lines 309-473): run the loop from the
initial state — `ST_START`, `quoted = 0`, empty buffer, empty row. -/
def csv_parse_next_row (delim : Char) (input : List Char) : RowResult :=
  parse_go delim input .ST_START false [] []

/-- Repeatedly call `csv_parse_next_row` until it reports the end-of-input
sentinel, as the examples do; `none` on failure (or fuel exhaustion). -/
def parse_rows (delim : Char) : Nat → List Char → Option (List (List (List Char)))
  | 0, _ => none
  | fuel + 1, input =>
    match csv_parse_next_row delim input with
    | .finished => some []
    | .failure _ => none
    | .row fields rest => Option.map (fun rs => fields :: rs) (parse_rows delim fuel rest)

/-- Parse a whole input; `input.length + 1` rounds of fuel always suffice
because a returned row consumes at least one character. -/
def parse_file (delim : Char) (input : List Char) : Option (List (List (List Char))) :=
  parse_rows delim (input.length + 1) input

/-! ### Row container (csv.c lines 122-216)

A row is a growable array of NUL-terminated strings; capacity management
is invisible at this level, so a row is a `List (List Char)` of the byte
sequences handed to `csv_row_append_field` (the stored copy is those
bytes followed by a NUL, which the reading side re-applies via `cstr`). -/

/-- `csv_row_append_field` (csv.c lines 200-216): copy the `len` given
bytes into a fresh field at the end of the row. -/
def csv_row_append_field (row : List (List Char)) (field : List Char) :
    List (List Char) :=
  row ++ [field]

/-! ### Writer (csv.c lines 477-615) -/

def QUOTE_ALL : Nat := 0

def QUOTE_MINIMAL : Nat := 1

def LINEBREAK_LF : Nat := 0

def LINEBREAK_CRLF : Nat := 1

def LINEBREAK_CR : Nat := 2

/-- `csv_writer_t` (csv.c lines 477-482), minus the `FILE *` sink. -/
structure CsvWriter where
  field_delimiter : Char
  quote_style : Nat
  line_break : Nat
deriving DecidableEq, Repr

/-- The construction-time validation of `csv_writer_new`
(csv.c lines 487-498). -/
def csv_writer_valid (w : CsvWriter) : Bool :=
  is_valid_field_delimiter w.field_delimiter &&
  (w.quote_style == QUOTE_ALL || w.quote_style == QUOTE_MINIMAL) &&
  (w.line_break == LINEBREAK_LF || w.line_break == LINEBREAK_CRLF ||
   w.line_break == LINEBREAK_CR)

/-- The writer configuration of `csv_writer_default` (csv.c lines 511-514). -/
def csv_writer_default : CsvWriter :=
  ⟨COMMA_CHAR, QUOTE_MINIMAL, LINEBREAK_LF⟩

/-- A stored field as the C string functions see it: the bytes before the
first NUL (`for (p = field; *p != '\0'; p++)`). -/
def cstr (field : List Char) : List Char :=
  field.takeWhile (fun c => !(c == NUL_CHAR))

/-- The C check `field[0] == '\0'` on a stored NUL-terminated field
(csv.c line 601): true when the stored bytes are empty or start with NUL. -/
def first_byte_is_nul : List Char → Bool
  | [] => true
  | c :: _ => c == NUL_CHAR

/-- `csv_write_newline` (csv.c lines 539-549). -/
def csv_write_newline (w : CsvWriter) : List Char :=
  if w.line_break = LINEBREAK_LF then [LF_CHAR]
  else if w.line_break = LINEBREAK_CRLF then [CR_CHAR, LF_CHAR]
  else [CR_CHAR]

/-- The `need_quote` decision of `csv_write_field` (csv.c lines 553-565)
on the NUL-truncated content: always under `QUOTE_ALL`, otherwise only
when some byte is `\r`, `\n`, `"` or the delimiter. -/
def field_need_quote (w : CsvWriter) (content : List Char) : Bool :=
  if w.quote_style = QUOTE_ALL then true
  else content.any
    (fun c => c == CR_CHAR || c == LF_CHAR || c == QUOTE_CHAR ||
      c == w.field_delimiter)

/-- The content loop of `csv_write_field` (csv.c lines 572-581): each `"`
is written as `""`, every other byte verbatim. -/
def write_field_content : List Char → List Char
  | [] => []
  | c :: cs =>
    (if c = QUOTE_CHAR then [QUOTE_CHAR, QUOTE_CHAR] else [c]) ++
    write_field_content cs

/-- `csv_write_field` (csv.c lines 551-592): optional surrounding quotes,
the escaped content, and the delimiter when further fields follow. -/
def csv_write_field (w : CsvWriter) (field : List Char)
    (field_idx field_count : Nat) : List Char :=
  let content := cstr field
  let need_quote := field_need_quote w content
  (if need_quote then [QUOTE_CHAR] else []) ++
  write_field_content content ++
  (if need_quote then [QUOTE_CHAR] else []) ++
  (if field_idx < field_count - 1 then [w.field_delimiter] else [])

/-- The `for (i = 0; i < field_count; i++)` loop of `csv_write_row`
(csv.c lines 607-611). -/
def write_fields (w : CsvWriter) (fields : List (List Char))
    (i field_count : Nat) : List Char :=
  match fields with
  | [] => []
  | f :: fs => csv_write_field w f i field_count ++ write_fields w fs (i + 1) field_count

/-- `csv_write_row` (csv.c lines 595-615): a zero-field row is just the
line terminator; a single field whose first byte is NUL is the two bytes
`""`; otherwise the fields in order; always the line terminator last. -/
def csv_write_row (w : CsvWriter) (row : List (List Char)) : List Char :=
  let field_count := row.length
  (if field_count = 0 then []
   else if field_count = 1 && first_byte_is_nul (row.headD []) then
     [QUOTE_CHAR, QUOTE_CHAR]
   else write_fields w row 0 field_count) ++
  csv_write_newline w

/-- Write a list of rows with `csv_write_row`, one after the other. -/
def csv_write_rows (w : CsvWriter) : List (List (List Char)) → List Char
  | [] => []
  | r :: rs => csv_write_row w r ++ csv_write_rows w rs

/-! ### Theorems -/

/-- C1.  The write-then-parse round trip fails on the code as stated: with
the valid writer configuration (delimiter `,`, policy All, terminator
CRLF) writing the single row `["a"]` produces the bytes `"a"` CR LF, and
re-parsing them with the same delimiter yields the two rows `["a"]` and
`[]` — a spurious zero-field row — because csv.c line 404 passes the
closing quote instead of the lookahead to `consume_end_of_line`, so the
LF of the CRLF is not coalesced after a quoted field ends a row. -/
theorem csv_write_parse_roundtrip_fails_for_crlf :
    csv_writer_valid ⟨COMMA_CHAR, QUOTE_ALL, LINEBREAK_CRLF⟩ = true ∧
    csv_write_rows ⟨COMMA_CHAR, QUOTE_ALL, LINEBREAK_CRLF⟩ [[['a']]] =
      [QUOTE_CHAR, 'a', QUOTE_CHAR, CR_CHAR, LF_CHAR] ∧
    parse_file COMMA_CHAR
      (csv_write_rows ⟨COMMA_CHAR, QUOTE_ALL, LINEBREAK_CRLF⟩ [[['a']]]) =
      some [[['a']], []] ∧
    parse_file COMMA_CHAR
      (csv_write_rows ⟨COMMA_CHAR, QUOTE_ALL, LINEBREAK_CRLF⟩ [[['a']]]) ≠
      some [[['a']]] := by
  refine ⟨rfl, rfl, rfl, ?_⟩
  decide

/-- C2.  Terminator insensitivity fails on the code as stated: the input
`"a"` LF parses as the single row `["a"]`, and so does `"a"` CR, but
`"a"` CR LF parses as the two rows `["a"]` and `[]`, because when the
row-ending CR is seen as the lookahead after a closing quote, csv.c line
404 hands `consume_end_of_line` the quote character `c` instead of the
lookahead, so the peek-and-consume of the LF never happens there.  For an
unquoted field (`a` CR LF) the coalescing works as claimed. -/
theorem parse_terminator_insensitivity_fails_for_quoted_crlf :
    parse_file COMMA_CHAR [QUOTE_CHAR, 'a', QUOTE_CHAR, LF_CHAR] = some [[['a']]] ∧
    parse_file COMMA_CHAR [QUOTE_CHAR, 'a', QUOTE_CHAR, CR_CHAR] = some [[['a']]] ∧
    parse_file COMMA_CHAR [QUOTE_CHAR, 'a', QUOTE_CHAR, CR_CHAR, LF_CHAR] =
      some [[['a']], []] ∧
    parse_file COMMA_CHAR [QUOTE_CHAR, 'a', QUOTE_CHAR, CR_CHAR, LF_CHAR] ≠
      parse_file COMMA_CHAR [QUOTE_CHAR, 'a', QUOTE_CHAR, LF_CHAR] ∧
    parse_file COMMA_CHAR ['a', CR_CHAR, LF_CHAR] = some [[['a']]] := by
  refine ⟨rfl, rfl, rfl, ?_, rfl⟩
  decide

/-- C7.  Under the valid configuration (delimiter `,`, Minimal, CRLF) the
writer does emit a zero-field row as only the line terminator and the
single-empty-field row as `""` plus the terminator, and re-parsing the
zero-field output reproduces `[]`; but re-parsing the `""` CR LF output
yields the two rows `[""]` and `[]` instead of `[""]` alone — the same
missed-LF slip of csv.c line 404 — so the claimed round trip fails for
the CRLF terminator. -/
theorem csv_write_row_empty_forms_fail_reparse_for_crlf :
    csv_writer_valid ⟨COMMA_CHAR, QUOTE_MINIMAL, LINEBREAK_CRLF⟩ = true ∧
    csv_write_row ⟨COMMA_CHAR, QUOTE_MINIMAL, LINEBREAK_CRLF⟩ [] =
      [CR_CHAR, LF_CHAR] ∧
    csv_write_row ⟨COMMA_CHAR, QUOTE_MINIMAL, LINEBREAK_CRLF⟩ [[]] =
      [QUOTE_CHAR, QUOTE_CHAR, CR_CHAR, LF_CHAR] ∧
    parse_file COMMA_CHAR
      (csv_write_row ⟨COMMA_CHAR, QUOTE_MINIMAL, LINEBREAK_CRLF⟩ []) =
      some [[]] ∧
    parse_file COMMA_CHAR
      (csv_write_row ⟨COMMA_CHAR, QUOTE_MINIMAL, LINEBREAK_CRLF⟩ [[]]) =
      some [[[]], []] ∧
    parse_file COMMA_CHAR
      (csv_write_row ⟨COMMA_CHAR, QUOTE_MINIMAL, LINEBREAK_CRLF⟩ [[]]) ≠
      some [[[]]] := by
  refine ⟨rfl, rfl, rfl, rfl, rfl, ?_⟩
  decide

/-- C9.  Creating an error of kind `CSV_ENOMEMORY` performs zero `malloc`
calls and returns the shared global cell; when either `malloc` fails
while creating an error of any other kind, the global cell is returned as
well; the global cell holds `GLOBAL_OOM`, and freeing it is a no-op;
every freshly allocated error that `csv_error_new` can return is freed by
releasing both its message and its struct. -/
theorem csv_error_oom_canonical :
    (∀ a1 a2 msg, csv_error_new a1 a2 CSV_ENOMEMORY msg = (.global, 0)) ∧
    (∀ a1 a2 code msg, a1 = false ∨ a2 = false →
      (csv_error_new a1 a2 code msg).1 = .global) ∧
    errCellVal .global = GLOBAL_OOM ∧
    csv_error_free GLOBAL_OOM = .noop ∧
    (∀ a1 a2 code msg e n, csv_error_new a1 a2 code msg = (.fresh e, n) →
      csv_error_free e = .freesMessageAndStruct) := by
  refine ⟨fun a1 a2 msg => by simp [csv_error_new], ?_, rfl, rfl, ?_⟩
  · intro a1 a2 code msg h
    unfold csv_error_new
    split
    · rfl
    · rcases h with rfl | rfl
      · simp
      · split
        · rfl
        · simp
  · intro a1 a2 code msg e n h
    unfold csv_error_new at h
    split at h
    · exact absurd (congrArg Prod.fst h) (by simp)
    · rename_i hcode
      split at h
      · exact absurd (congrArg Prod.fst h) (by simp)
      · split at h
        · exact absurd (congrArg Prod.fst h) (by simp)
        · have he : e = ⟨code, msg⟩ := by
            have := congrArg Prod.fst h
            simpa using this.symm
          subst he
          simp [csv_error_free, hcode]

/-- Closed witness for `csv_error_oom_canonical`: its hypothesis-bearing
conjuncts applied at concrete inputs. -/
theorem csv_error_oom_canonical_witness :
    (csv_error_new false true CSV_EINVALID_FORMAT "m").1 = .global ∧
    csv_error_free (errCellVal
      (csv_error_new true true CSV_EINVALID_FORMAT "m").1) =
      .freesMessageAndStruct :=
  ⟨csv_error_oom_canonical.2.1 false true CSV_EINVALID_FORMAT "m" (Or.inl rfl),
   csv_error_oom_canonical.2.2.2.2 true true CSV_EINVALID_FORMAT "m"
     ⟨CSV_EINVALID_FORMAT, "m"⟩ 2 rfl⟩

theorem cstr_idem (f : List Char) : cstr (cstr f) = cstr f :=
  List.takeWhile_idem

theorem first_byte_is_nul_cstr (f : List Char) :
    first_byte_is_nul (cstr f) = first_byte_is_nul f := by
  cases f with
  | nil => rfl
  | cons c cs =>
    by_cases h : c = NUL_CHAR
    · subst h; simp [cstr, first_byte_is_nul]
    · simp [cstr, first_byte_is_nul, h]

theorem csv_write_field_cstr (w : CsvWriter) (f : List Char) (i n : Nat) :
    csv_write_field w f i n = csv_write_field w (cstr f) i n := by
  simp [csv_write_field, cstr_idem]

theorem write_fields_cstr (w : CsvWriter) (fs : List (List Char)) (i n : Nat) :
    write_fields w fs i n = write_fields w (fs.map cstr) i n := by
  induction fs generalizing i with
  | nil => rfl
  | cons f fs ih => simp [write_fields, ← csv_write_field_cstr, ih]

/-- C10.  The writer sees each field only up to its first NUL byte:
`csv_write_field` and `csv_write_row` produce the same bytes for a field
and for its NUL-truncation; the single-empty-field `""` special case of
`csv_write_row` triggers exactly when the sole field's first byte is NUL;
and the row obtained by appending the bytes `a NUL b` through
`csv_row_append_field` is written as just `a` plus the terminator. -/
theorem csv_writer_nul_truncation :
    (∀ w f i n, csv_write_field w f i n = csv_write_field w (cstr f) i n) ∧
    (∀ w row, csv_write_row w row = csv_write_row w (row.map cstr)) ∧
    (∀ w f, first_byte_is_nul f = true →
      csv_write_row w [f] = [QUOTE_CHAR, QUOTE_CHAR] ++ csv_write_newline w) ∧
    csv_write_row csv_writer_default
      (csv_row_append_field [] ['a', NUL_CHAR, 'b']) = ['a', LF_CHAR] := by
  refine ⟨csv_write_field_cstr, ?_, ?_, by decide⟩
  · intro w row
    cases row with
    | nil => rfl
    | cons f fs =>
      have key : write_fields w (f :: fs) 0 (fs.length + 1) =
          write_fields w (cstr f :: List.map cstr fs) 0 (fs.length + 1) := by
        rw [show cstr f :: List.map cstr fs = List.map cstr (f :: fs) from rfl]
        exact write_fields_cstr w (f :: fs) 0 (fs.length + 1)
      simp only [csv_write_row, List.length_cons, List.length_map,
        List.map_cons, List.headD_cons, first_byte_is_nul_cstr, key]
  · intro w f h
    simp [csv_write_row, h]

/-- Closed witness for `csv_writer_nul_truncation`: the special case at a
field whose first byte is NUL. -/
theorem csv_writer_nul_truncation_witness :
    csv_write_row csv_writer_default [[NUL_CHAR, 'x']] =
      [QUOTE_CHAR, QUOTE_CHAR] ++ csv_write_newline csv_writer_default :=
  csv_writer_nul_truncation.2.2.1 csv_writer_default [NUL_CHAR, 'x'] (by decide)

/-- C5.  For every valid delimiter and every accepted line terminator, the
line of exactly four double quotes parses as one row with the single
field `"` (the escaped-quote decoding), and the line of exactly two
double quotes parses as one row with the single empty field. -/
theorem parse_quote_shapes (delim : Char)
    (h : is_valid_field_delimiter delim = true) (t : List Char)
    (ht : t = [LF_CHAR] ∨ t = [CR_CHAR] ∨ t = [CR_CHAR, LF_CHAR]) :
    (∃ rest, csv_parse_next_row delim
      ([QUOTE_CHAR, QUOTE_CHAR, QUOTE_CHAR, QUOTE_CHAR] ++ t) =
      .row [[QUOTE_CHAR]] rest) ∧
    (∃ rest, csv_parse_next_row delim ([QUOTE_CHAR, QUOTE_CHAR] ++ t) =
      .row [[]] rest) := by
  simp only [is_valid_field_delimiter, Bool.not_eq_true', Bool.or_eq_false_iff,
    beq_eq_false_iff_ne, ne_eq] at h
  obtain ⟨⟨hCR, hLF⟩, hQ⟩ := h
  have hCR2 : ¬(('\r' : Char) = delim) := fun hh => hCR hh.symm
  have hLF2 : ¬(('\n' : Char) = delim) := fun hh => hLF hh.symm
  rcases ht with rfl | rfl | rfl
  · exact ⟨⟨[], by simp [csv_parse_next_row, parse_go, consume_end_of_line,
        QUOTE_CHAR, CR_CHAR, LF_CHAR, hCR2, hLF2]⟩,
      ⟨[], by simp [csv_parse_next_row, parse_go, consume_end_of_line,
        QUOTE_CHAR, CR_CHAR, LF_CHAR, hCR2, hLF2]⟩⟩
  · exact ⟨⟨[], by simp [csv_parse_next_row, parse_go, consume_end_of_line,
        QUOTE_CHAR, CR_CHAR, LF_CHAR, hCR2, hLF2]⟩,
      ⟨[], by simp [csv_parse_next_row, parse_go, consume_end_of_line,
        QUOTE_CHAR, CR_CHAR, LF_CHAR, hCR2, hLF2]⟩⟩
  · exact ⟨⟨[LF_CHAR], by simp [csv_parse_next_row, parse_go, consume_end_of_line,
        QUOTE_CHAR, CR_CHAR, LF_CHAR, hCR2, hLF2]⟩,
      ⟨[LF_CHAR], by simp [csv_parse_next_row, parse_go, consume_end_of_line,
        QUOTE_CHAR, CR_CHAR, LF_CHAR, hCR2, hLF2]⟩⟩

/-- Closed witness for `parse_quote_shapes`: delimiter `,`, LF terminator. -/
theorem parse_quote_shapes_witness :
    (∃ rest, csv_parse_next_row COMMA_CHAR
      ([QUOTE_CHAR, QUOTE_CHAR, QUOTE_CHAR, QUOTE_CHAR] ++ [LF_CHAR]) =
      .row [[QUOTE_CHAR]] rest) ∧
    (∃ rest, csv_parse_next_row COMMA_CHAR
      ([QUOTE_CHAR, QUOTE_CHAR] ++ [LF_CHAR]) = .row [[]] rest) :=
  parse_quote_shapes COMMA_CHAR (by decide) [LF_CHAR] (Or.inl rfl)

/-- Every failure `parse_go` can produce is a `CSV_EINVALID_FORMAT` error
carrying the message of one of the three violation sites of
`csv_parse_next_row` (csv.c lines 387, 411/420 share one message, 420 is
`unclosed quote`): in the pure embedding the stream cannot raise an I/O
error and allocation always succeeds, so these are the only errors. -/
theorem parse_go_failure_mem (delim : Char) (input : List Char) (st : ParseState)
    (q : Bool) (buf : List Char) (row : List (List Char)) :
    ∀ e, parse_go delim input st q buf row = .failure e →
      e.error_code = CSV_EINVALID_FORMAT ∧
      (e.message = "quote(\") should be quoted" ∨
       e.message = "closing quote can only followed by `\r\n` or field_delimiter" ∨
       e.message = "unclosed quote") := by
  induction input, st, q, buf, row using parse_go.induct delim <;>
    intro e h <;>
    rw [parse_go.eq_def] at h <;>
    (try simp_all) <;>
    (try subst h) <;>
    simp

/-- C3.  `csv_parse_next_row` produces `CSV_EINVALID_FORMAT` exactly at
the three claimed situations and nowhere else: every failure the parser
can produce on any input carries error code `CSV_EINVALID_FORMAT` and one
of the three messages of csv.c lines 387, 411 and 420 (in the pure
embedding the stream raises no I/O error and allocation succeeds, so no
other error kind arises); and each situation does fail — an unescaped
quote inside the unquoted field `ab"cd`, a closing quote followed by a
plain character in `"a"b`, a closing quote followed by EOF in `"a"`, and
EOF inside the open quoted field `"o`. -/
theorem csv_parse_invalid_format_cases :
    (∀ delim input e, csv_parse_next_row delim input = .failure e →
      e.error_code = CSV_EINVALID_FORMAT ∧
      (e.message = "quote(\") should be quoted" ∨
       e.message = "closing quote can only followed by `\r\n` or field_delimiter" ∨
       e.message = "unclosed quote")) ∧
    csv_parse_next_row COMMA_CHAR ['a', 'b', QUOTE_CHAR, 'c', 'd', LF_CHAR] =
      .failure ⟨CSV_EINVALID_FORMAT, "quote(\") should be quoted"⟩ ∧
    csv_parse_next_row COMMA_CHAR [QUOTE_CHAR, 'a', QUOTE_CHAR, 'b', LF_CHAR] =
      .failure ⟨CSV_EINVALID_FORMAT,
        "closing quote can only followed by `\r\n` or field_delimiter"⟩ ∧
    csv_parse_next_row COMMA_CHAR [QUOTE_CHAR, 'a', QUOTE_CHAR] =
      .failure ⟨CSV_EINVALID_FORMAT,
        "closing quote can only followed by `\r\n` or field_delimiter"⟩ ∧
    csv_parse_next_row COMMA_CHAR [QUOTE_CHAR, 'o'] =
      .failure ⟨CSV_EINVALID_FORMAT, "unclosed quote"⟩ :=
  ⟨fun delim input e => parse_go_failure_mem delim input .ST_START false [] [] e,
   rfl, rfl, rfl, rfl⟩

/-- Closed witness for `csv_parse_invalid_format_cases`: its universally
quantified conjunct applied to the concrete failing input `"`. -/
theorem csv_parse_invalid_format_cases_witness :
    (⟨CSV_EINVALID_FORMAT, "unclosed quote"⟩ : CsvErr).error_code =
      CSV_EINVALID_FORMAT ∧
    ((⟨CSV_EINVALID_FORMAT, "unclosed quote"⟩ : CsvErr).message =
      "quote(\") should be quoted" ∨
     (⟨CSV_EINVALID_FORMAT, "unclosed quote"⟩ : CsvErr).message =
      "closing quote can only followed by `\r\n` or field_delimiter" ∨
     (⟨CSV_EINVALID_FORMAT, "unclosed quote"⟩ : CsvErr).message =
      "unclosed quote") :=
  csv_parse_invalid_format_cases.1 COMMA_CHAR [QUOTE_CHAR]
    ⟨CSV_EINVALID_FORMAT, "unclosed quote"⟩ rfl

/-- A row returned by `parse_go` from a state that already has a finished
field, or that is inside a field, is never the zero-field row: every
returning branch of those states appends the pending buffer first. -/
theorem parse_go_row_ne_nil (delim : Char) (input : List Char) (st : ParseState)
    (q : Bool) (buf : List Char) (row : List (List Char)) :
    ∀ f rest, (row ≠ [] ∨ st = .ST_INFIELD) →
      parse_go delim input st q buf row = .row f rest → f ≠ [] := by
  induction input, st, q, buf, row using parse_go.induct delim <;>
    intro f rest h1 h <;>
    rw [parse_go.eq_def] at h <;>
    (try simp_all) <;>
    exact fun hf => by simp [hf] at h

/-- C4.  The three outcomes of `csv_parse_next_row` are statically
separable, EOF on an empty stream yields the end-of-input sentinel, and a
zero-field row arises only from a leading line terminator: (1) the empty
stream (EOF, no pending content, no error in the pure embedding) returns
`finished`; (2,3) `finished` is a different constructor from both `row`
and `failure`; (4) any zero-field row comes from an input starting with
CR or LF; (5) conversely a leading LF does produce the zero-field row. -/
theorem csv_parse_end_sentinel :
    (∀ delim, csv_parse_next_row delim [] = .finished) ∧
    (∀ f rest, RowResult.finished ≠ RowResult.row f rest) ∧
    (∀ e, RowResult.finished ≠ RowResult.failure e) ∧
    (∀ delim input f rest, csv_parse_next_row delim input = .row f rest →
      f = [] → ∃ c tl, input = c :: tl ∧ (c = CR_CHAR ∨ c = LF_CHAR)) ∧
    (∀ delim tl, csv_parse_next_row delim (LF_CHAR :: tl) = .row [] tl) := by
  refine ⟨fun delim => rfl, fun f rest => by simp, fun e => by simp, ?_, ?_⟩
  · intro delim input f rest h hf
    subst hf
    cases input with
    | nil => simp [csv_parse_next_row, parse_go] at h
    | cons c tl =>
      by_cases hq : c = QUOTE_CHAR
      · exfalso
        subst hq
        rw [csv_parse_next_row, parse_go.eq_def] at h
        simp at h
        exact parse_go_row_ne_nil delim tl _ true [] [] [] rest (Or.inr rfl) h rfl
      · by_cases hterm : c = CR_CHAR ∨ c = LF_CHAR
        · exact ⟨c, tl, rfl, hterm⟩
        · exfalso
          by_cases hd : c = delim
          · rw [csv_parse_next_row, parse_go.eq_def] at h
            subst hd
            simp [hq, hterm] at h
            exact parse_go_row_ne_nil c tl _ false [] [[]] [] rest
              (Or.inl (by simp)) h rfl
          · rw [csv_parse_next_row, parse_go.eq_def] at h
            simp [hq, hterm, hd] at h
            exact parse_go_row_ne_nil delim tl _ false [c] [] [] rest
              (Or.inr rfl) h rfl
  · intro delim tl
    rw [csv_parse_next_row, parse_go.eq_def]
    simp [QUOTE_CHAR, CR_CHAR, LF_CHAR, consume_end_of_line]

/-- Closed witness for `csv_parse_end_sentinel`: the zero-field-row
conjunct applied at the input consisting of a single LF. -/
theorem csv_parse_end_sentinel_witness :
    ∃ c tl, [LF_CHAR] = c :: tl ∧ (c = CR_CHAR ∨ c = LF_CHAR) :=
  csv_parse_end_sentinel.2.2.2.1 COMMA_CHAR [LF_CHAR] [] [] (by decide) rfl

/-- A run of ordinary characters (not `"`, CR, LF or the delimiter) in the
`ST_INFIELD` state is moved verbatim into the field buffer. -/
theorem parse_go_ordinary_run (delim : Char) (f : List Char)
    (hord : ∀ c ∈ f, c ≠ QUOTE_CHAR ∧ c ≠ CR_CHAR ∧ c ≠ LF_CHAR ∧ c ≠ delim) :
    ∀ rest q buf row, parse_go delim (f ++ rest) .ST_INFIELD q buf row =
      parse_go delim rest .ST_INFIELD q (buf ++ f) row := by
  induction f with
  | nil => intro rest q buf row; simp
  | cons c cs ih =>
    intro rest q buf row
    obtain ⟨hq, hcr, hlf, hd⟩ := hord c (by simp)
    rw [List.cons_append, parse_go.eq_def]
    simp only [hq, hcr, hlf, hd, if_false, or_self, if_neg, ite_false]
    rw [ih (fun x hx => hord x (by simp [hx])) rest q (buf ++ [c]) row]
    simp

/-- C6.  Trailing delimiters yield an empty final field, never a skipped
one: (1) in `ST_START` with at least one finished field and the empty
buffer (the state right after a delimiter), a line terminator returns the
row with an empty field appended; (2) so does clean EOF; (3) end to end,
an input consisting of an ordinary-character field, the delimiter, and a
LF terminator parses as exactly that field followed by an empty field. -/
theorem parse_trailing_delimiter :
    (∀ delim q row c tl, row ≠ [] → (c = CR_CHAR ∨ c = LF_CHAR) →
      parse_go delim (c :: tl) .ST_START q [] row =
        .row (row ++ [[]]) (consume_end_of_line c tl)) ∧
    (∀ delim q row, row ≠ [] →
      parse_go delim [] .ST_START q [] row = .row (row ++ [[]]) []) ∧
    (∀ delim f tl, is_valid_field_delimiter delim = true →
      (∀ c ∈ f, c ≠ QUOTE_CHAR ∧ c ≠ CR_CHAR ∧ c ≠ LF_CHAR ∧ c ≠ delim) →
      csv_parse_next_row delim (f ++ delim :: LF_CHAR :: tl) =
        .row [f, []] tl) := by
  refine ⟨?_, ?_, ?_⟩
  · intro delim q row c tl hrow hterm
    rw [parse_go.eq_def]
    rcases hterm with rfl | rfl <;>
      simp [CR_CHAR, LF_CHAR, QUOTE_CHAR, List.length_pos, hrow]
  · intro delim q row hrow
    rw [parse_go.eq_def]
    simp [List.length_pos, hrow]
  · intro delim f tl hvalid hord
    simp only [is_valid_field_delimiter, Bool.not_eq_true', Bool.or_eq_false_iff,
      beq_eq_false_iff_ne, ne_eq] at hvalid
    obtain ⟨⟨hdCR, hdLF⟩, hdQ⟩ := hvalid
    cases f with
    | nil =>
      rw [csv_parse_next_row, List.nil_append, parse_go.eq_def]
      simp only [hdQ, hdCR, hdLF, or_self, if_neg, if_pos, ite_false, ite_true,
        List.nil_append, if_true]
      rw [parse_go.eq_def]
      simp [QUOTE_CHAR, CR_CHAR, LF_CHAR, consume_end_of_line]
    | cons c cs =>
      obtain ⟨hq, hcr, hlf, hd⟩ := hord c (by simp)
      rw [csv_parse_next_row, List.cons_append, parse_go.eq_def]
      simp only [hq, hcr, hlf, hd, or_self, if_neg, ite_false, List.nil_append]
      rw [parse_go_ordinary_run delim cs (fun x hx => hord x (by simp [hx]))
        (delim :: LF_CHAR :: tl) false [c] []]
      rw [parse_go.eq_def]
      simp only [hdQ, hdCR, hdLF, or_self, if_neg, if_pos, ite_false, ite_true,
        List.nil_append, if_true]
      rw [parse_go.eq_def]
      simp [QUOTE_CHAR, CR_CHAR, LF_CHAR, consume_end_of_line]
      rw [parse_go.eq_def]
      simp [QUOTE_CHAR, CR_CHAR, LF_CHAR, consume_end_of_line]

/-- Closed witness for `parse_trailing_delimiter`: the end-to-end conjunct
at delimiter `,` and field `a`, and the EOF conjunct at the row `["x"]`. -/
theorem parse_trailing_delimiter_witness :
    csv_parse_next_row COMMA_CHAR (['a'] ++ COMMA_CHAR :: LF_CHAR :: []) =
      .row [['a'], []] [] ∧
    parse_go COMMA_CHAR [] .ST_START false [] [['x']] =
      .row [['x'], []] [] :=
  ⟨parse_trailing_delimiter.2.2 COMMA_CHAR ['a'] [] (by decide)
    (by intro c hc; simp at hc; subst hc; refine ⟨?_, ?_, ?_, ?_⟩ <;> decide),
   parse_trailing_delimiter.2.1 COMMA_CHAR false [['x']] (by simp)⟩

/-- The escaping loop doubles exactly the quote characters: the written
content carries twice as many `"` bytes as the source content. -/
theorem write_field_content_count (l : List Char) :
    (write_field_content l).count QUOTE_CHAR = 2 * l.count QUOTE_CHAR := by
  induction l with
  | nil => rfl
  | cons c cs ih =>
    by_cases h : c = QUOTE_CHAR
    · subst h
      simp [write_field_content, List.count_cons, ih]
      ring
    · simp [write_field_content, List.count_cons, h, ih]

/-- C8 (amended).  For a valid delimiter under the Minimal policy: a field
whose NUL-truncated content contains at least one `"` is quoted, a quoted
field carries exactly `2k+2` quote bytes where `k` counts the `"`
occurrences in its content, and an unquoted field carries zero quote
bytes.  (The claim's `2k+2` with `k = 0` fails for plain fields, which
Minimal leaves unquoted — see the counterexample.) -/
theorem csv_write_field_quote_doubling (w : CsvWriter) (field : List Char)
    (i n : Nat) (hq : w.quote_style = QUOTE_MINIMAL)
    (hd : is_valid_field_delimiter w.field_delimiter = true) :
    (0 < (cstr field).count QUOTE_CHAR →
      field_need_quote w (cstr field) = true) ∧
    (field_need_quote w (cstr field) = true →
      (csv_write_field w field i n).count QUOTE_CHAR =
        2 * (cstr field).count QUOTE_CHAR + 2) ∧
    (field_need_quote w (cstr field) = false →
      (csv_write_field w field i n).count QUOTE_CHAR = 0) := by
  simp only [is_valid_field_delimiter, Bool.not_eq_true', Bool.or_eq_false_iff,
    beq_eq_false_iff_ne, ne_eq] at hd
  obtain ⟨⟨hdCR, hdLF⟩, hdQ⟩ := hd
  have hquoted : 0 < (cstr field).count QUOTE_CHAR →
      field_need_quote w (cstr field) = true := by
    intro hk
    have hmem : QUOTE_CHAR ∈ cstr field := by
      by_contra hmem
      rw [← List.count_eq_zero] at hmem
      omega
    simp [field_need_quote, hq, QUOTE_MINIMAL, QUOTE_ALL, List.any_eq_true]
    exact ⟨QUOTE_CHAR, hmem, by simp⟩
  have htail : List.count QUOTE_CHAR
      (if i < n - 1 then [w.field_delimiter] else []) = 0 := by
    split
    · simp [List.count_cons, hdQ]
    · rfl
  refine ⟨hquoted, ?_, ?_⟩
  · intro hneed
    simp [csv_write_field, hneed, List.count_append, List.count_cons,
      write_field_content_count, htail]
  · intro hneed
    have hzero : (cstr field).count QUOTE_CHAR = 0 := by
      by_contra hk
      rw [hquoted (Nat.pos_of_ne_zero hk)] at hneed
      cases hneed
    simp [csv_write_field, hneed, List.count_append,
      write_field_content_count, hzero, htail]

/-- Closed counterexample to C8 as stated: the field `a` contains `k = 0`
double quotes, so the claim demands `2k+2 = 2` quote bytes, but the
Minimal-policy writer leaves it unquoted and emits zero quote bytes. -/
theorem csv_write_field_quote_doubling_counterexample :
    (csv_write_field csv_writer_default ['a'] 0 1).count QUOTE_CHAR = 0 ∧
    (csv_write_field csv_writer_default ['a'] 0 1).count QUOTE_CHAR ≠
      2 * (cstr ['a']).count QUOTE_CHAR + 2 := by
  decide

/-- Closed witness for `csv_write_field_quote_doubling`: the single-quote
field under the default Minimal writer is quoted and carries
`2·1+2 = 4` quote bytes. -/
theorem csv_write_field_quote_doubling_witness :
    (csv_write_field csv_writer_default [QUOTE_CHAR] 0 1).count QUOTE_CHAR =
      2 * (cstr [QUOTE_CHAR]).count QUOTE_CHAR + 2 :=
  (csv_write_field_quote_doubling csv_writer_default [QUOTE_CHAR] 0 1 rfl
    (by decide)).2.1 (by decide)

end Csv
